import Mathlib

/-!
# Verification of the bot-machine Flow engine

A shallow embedding of the repository's dialogue-orchestration core:

* `src/utils.ts` — `pathStringToRegex`, the template-to-regex compiler;
* `src/flow.ts` — `FlowController` (`handle`, `executeAction`, `renderState`,
  `extractParamNames`, `exitFlow`);
* `src/router.ts` — the top-level catch of `Router.handle`, modelled only as
  far as the claims about error propagation need it.

Conventions of the embedding:

* JavaScript exceptions are modelled as `Except Unit`; a `try/catch` block
  becomes a `match` on the `Except` value.  Mutation of the context is
  modelled by threading a state record `St` explicitly, so a value of type
  `Except Unit α × St` holds both the outcome (normal return or thrown
  exception) and the state at the moment control left the block — exactly as
  in JavaScript, where mutations performed before a `throw` survive it.
* `ctx.session` is an open string-keyed bag with the two reserved keys
  `flowName` and `flowState`; we model those two keys explicitly (an absent
  key is `none`) and all remaining keys as an association list.
* Transport calls (`reply`, `editMessageText`, `answerCallbackQuery`) append
  an event to a log on success; whether a call throws is determined by the
  per-method flags of `Ctx`.  Message markup is not modelled (no claim
  concerns it).
* Business-logic units (`BotCommand`/`BotQuery`) carry their zod schemas as
  functions `Val → Except Unit Val` and an `execute` function that may read
  the update and the session and may throw; in this embedding `execute` does
  not itself mutate the session (none of the claims concerns self-mutating
  commands).
* Regular-expression patterns: template strings (the branch the source sends
  through `pathStringToRegex` when the pattern contains a colon) are compiled
  to an explicit token list and matched with full backtracking, faithful to
  JavaScript's anchored regex produced by the source for templates whose
  literal parts contain no regex metacharacters.  Patterns without a colon
  are compiled with `new RegExp(pattern)` and matched unanchored; we model
  the metacharacter-free case, where this is substring search with no
  capture groups.  No modelled pattern produces named capture groups, so the
  `match.groups` branch of the source is never taken, exactly as for every
  pattern class the model covers.
-/

/-- A JavaScript-like value: enough structure for session entries, command
inputs, results and component props. -/
inductive Val where
  | undef : Val
  | str (s : String) : Val
  | num (n : Int) : Val
  | obj (fields : List (String × Val)) : Val

/-- The session bag.  `flowName`/`flowState` are the two reserved keys of
`ctx.session`; `rest` are all other keys. -/
structure Session where
  flowName : Option String
  flowState : Option String
  rest : List (String × Val)

/-- The `data` field of a callback query (`update.callback_query.data`). -/
structure CallbackQuery where
  data : Option String

/-- The `text` field of a message (`update.message.text`). -/
structure Message where
  text : Option String

/-- The projection of a Telegram update that the flow engine reads. -/
structure Update where
  callback_query : Option CallbackQuery
  message : Option Message

/-- One successful transport delivery. -/
inductive SentMsg where
  | reply (text : String) : SentMsg
  | edit (text : String) : SentMsg
  | answerCb : SentMsg
deriving DecidableEq

/-- The mutable portion of the context threaded through the engine, plus the
observation logs: `sent` records successful transport calls (newest first),
`logs` records `console.error` diagnostics (newest first), and `views` is a
ghost trace recording each state name whose `component` function was invoked
(pushed at the exact program point of the `state.component(props)` call). -/
structure St where
  session : Session
  params : List (String × String)
  sent : List SentMsg
  logs : List String
  views : List String

/-- The immutable portion of the context: the inbound update and the
behaviour of the transport (whether each method succeeds or throws). -/
structure Ctx where
  update : Update
  replyOk : Bool
  editOk : Bool
  answerOk : Bool

/-- The message payload returned by a component (markup not modelled). -/
structure MessagePayload where
  text : String

/-- A zod schema: `parse` either returns the validated value or throws. -/
structure ZodSchema where
  parse : Val → Except Unit Val

/-- A business-logic command (`BotCommand` of `types.ts`). -/
structure BotCommand where
  name : String
  input : ZodSchema
  output : ZodSchema
  execute : Val → Update → Session → Except Unit Val

/-- A business-logic query (`BotQuery` of `types.ts`). -/
structure BotQuery where
  name : String
  input : ZodSchema
  output : ZodSchema
  execute : Val → Update → Session → Except Unit Val

/-- The `nextState` field of an `ActionHandler`: a literal state name or a
function of the command's result. -/
inductive NextStateSel where
  | name (s : String) : NextStateSel
  | func (f : Val → String) : NextStateSel

/-- A transition rule (`ActionHandler` of `types.ts`).  The optional
`refresh` flag is modelled as `Bool` (`false` for absent, which is falsy). -/
structure ActionHandler where
  command : BotCommand
  nextState : Option NextStateSel
  refresh : Bool

/-- A state descriptor (`FlowState` of `types.ts`).  The optional pattern
maps `onAction`/`onText` are association lists iterated in insertion order;
an absent map behaves exactly like an empty one in the source's
`for…in` loop, so both are modelled as `[]`. -/
structure FlowState where
  component : Val → Except Unit MessagePayload
  onEnter : Option BotQuery
  onAction : List (String × ActionHandler)
  onText : List (String × ActionHandler)

/-- A flow controller: its unique name and its state mapping. -/
structure FlowController where
  name : String
  config : List (String × FlowState)

/-- JavaScript's `\w` character class: `[A-Za-z0-9_]`. -/
def isWordChar (c : Char) : Bool :=
  (97 ≤ c.toNat && c.toNat ≤ 122) || (65 ≤ c.toNat && c.toNat ≤ 90) ||
    (48 ≤ c.toNat && c.toNat ≤ 57) || c == '_'

/-- Whether a character list starts with a word character. -/
def headIsWord : List Char → Bool
  | [] => false
  | c :: _ => isWordChar c

/-- One token of the compiled anchored regular expression: a literal
character, or a capturing group `[^excl]+` (one or more characters other
than `excl`). -/
inductive RTok where
  | lit (c : Char) : RTok
  | cap (excl : Char) : RTok
deriving DecidableEq

/-- The scan performed by `path.replace(/:(\w+)/g, '([^:]+)')`, one
character at a time.  The flag records whether the scanner is currently
consuming the word-run of a placeholder it has already replaced.  A `:`
followed by at least one word character starts a placeholder and emits the
capture token `([^:]+)`; every other character is a literal. -/
def scanTokens : Bool → List Char → List RTok
  | _, [] => []
  | inPh, c :: rest =>
    if inPh && isWordChar c then scanTokens true rest
    else if c == ':' && headIsWord rest then RTok.cap ':' :: scanTokens true rest
    else RTok.lit c :: scanTokens false rest

/-- `pathStringToRegex` of `utils.ts`: compiles a template string to the
anchored regex `^…$`, each `:identifier` placeholder replaced by the fixed
capture class `([^:]+)`.  The result is represented as its token list. -/
def pathStringToRegex (path : String) : List RTok :=
  scanTokens false path.data

/-- The same scan as `scanTokens`, collecting the placeholder identifiers
instead of the tokens: this is the repeated `exec` of `/:(\w+)/g` performed
by `FlowController.extractParamNames`.  The accumulator holds the reversed
characters of the identifier currently being read. -/
def scanNames : Option (List Char) → List Char → List String
  | none, [] => []
  | some cs, [] => [String.mk cs.reverse]
  | none, c :: rest =>
    if c == ':' && headIsWord rest then scanNames (some []) rest
    else scanNames none rest
  | some cs, c :: rest =>
    if isWordChar c then scanNames (some (c :: cs)) rest
    else
      String.mk cs.reverse ::
        (if c == ':' && headIsWord rest then scanNames (some []) rest
         else scanNames none rest)

/-- `FlowController.extractParamNames`: the placeholder identifiers of a
pattern string, in order of appearance. -/
def extractParamNames (pattern : String) : List String :=
  scanNames none pattern.data

/-- Whether a string contains a colon (`pattern.includes(':')`). -/
def hasColon : List Char → Bool
  | [] => false
  | c :: rest => c == ':' || hasColon rest

/-- Try `g k` for `k = n, n-1, …, 1` and return the first success: the
backtracking order of a greedy `[^x]+` group. -/
def firstSome {α : Type} (g : Nat → Option α) : Nat → Option α
  | 0 => none
  | n + 1 =>
    match g (n + 1) with
    | some r => some r
    | none => firstSome g n

/-- Match a compiled token list against an entire input (the source's regex
is anchored with `^…$`), returning the list of captured substrings.  A
capture group `[^e]+` greedily consumes the longest run of characters other
than `e` and backtracks, exactly as the JavaScript engine does. -/
def matchToks : List RTok → List Char → Option (List (List Char))
  | [], xs => if xs.isEmpty then some [] else none
  | RTok.lit _ :: _, [] => none
  | RTok.lit c :: ts, x :: rest => if x == c then matchToks ts rest else none
  | RTok.cap e :: ts, xs =>
    firstSome
      (fun k =>
        match matchToks ts (xs.drop k) with
        | some caps => some (xs.take k :: caps)
        | none => none)
      (xs.takeWhile (fun c => c != e)).length

/-- Search for a needle as a contiguous substring of the haystack: the
behaviour of `text.match(new RegExp(pattern))` for a pattern that is plain
text (no metacharacters), which is the only shape of colon-free pattern the
model covers. -/
def containsSeq : List Char → List Char → Bool
  | needle, [] => needle.isEmpty
  | needle, c :: rest => needle.isPrefixOf (c :: rest) || containsSeq needle rest

/-- The pattern dispatch of `processPatterns`: a pattern containing a colon
goes through `pathStringToRegex` (anchored, with captures); any other
pattern becomes `new RegExp(pattern)` and is searched unanchored with no
captures.  Returns `none` on no match, or the positional captures
`match[1…]`. -/
def patternMatch (pattern text : String) : Option (List String) :=
  if hasColon pattern.data then
    match matchToks (pathStringToRegex pattern) text.data with
    | some caps => some (caps.map String.mk)
    | none => none
  else if containsSeq pattern.data text.data then some [] else none

/-- The positional-capture loop of `processPatterns`: pair the i-th
placeholder name with `match[i+1]`, skipping empty names and empty values
(the source's `if (paramName)` / `if (value)` guards). -/
def buildParams (names : List String) (caps : List String) : List (String × String) :=
  (names.zip caps).filter (fun p => p.1 != "" && p.2 != "")

/-- Number of capture groups in a compiled token list. -/
def countCaps : List RTok → Nat
  | [] => 0
  | RTok.cap _ :: ts => countCaps ts + 1
  | RTok.lit _ :: ts => countCaps ts

/-- First character of a list, or `:` when the list is empty. -/
def headOrColon : List Char → Char
  | [] => ':'
  | c :: _ => c

/-- Modelled from the spec: the claimed compilation, in which each
`:identifier` placeholder becomes a capturing group matching one or more
characters excluding the literal delimiter character that immediately
follows that placeholder in the template (for a placeholder at the end of
the template, where no delimiter follows, the fallback `:` is used).  Fuel
recursion on the length of the input. -/
def specTokensF : Nat → List Char → List RTok
  | 0, _ => []
  | _, [] => []
  | fuel + 1, c :: rest =>
    if c == ':' && headIsWord rest then
      RTok.cap (headOrColon (rest.dropWhile isWordChar)) ::
        specTokensF fuel (rest.dropWhile isWordChar)
    else RTok.lit c :: specTokensF fuel rest

/-- Modelled from the spec: the delimiter-dependent compilation claimed in
§4.1 of the spec, to be compared with the source's `pathStringToRegex`. -/
def specPathToRegex (path : String) : List RTok :=
  specTokensF path.data.length path.data

/-- The fixed user-facing failure message of `executeAction`'s catch block. -/
def actionFailureMessage : String := "Произошла ошибка. Попробуйте еще раз."

/-- The fixed user-facing failure message of `renderState`'s catch block. -/
def renderFailureMessage : String := "Произошла ошибка при отображении экрана."

/-- The `console.error` diagnostic of `executeAction`'s catch block. -/
def actionErrorLog : String := "Zod validation or command execution error"

/-- The `console.error` diagnostic of `renderState`'s catch block. -/
def renderErrorLog : String := "Zod validation or query execution error in renderState"

/-- The `console.error` diagnostic of `Router.handle`'s top-level catch. -/
def routerErrorLog : String := "Error handling update"

/-- Record a `console.error` call. -/
def pushLog (msg : String) (st : St) : St :=
  { st with logs := msg :: st.logs }

/-- Record a successful transport delivery. -/
def pushSent (m : SentMsg) (st : St) : St :=
  { st with sent := m :: st.sent }

/-- Ghost observation: record that a state's component was invoked. -/
def pushView (stateName : String) (st : St) : St :=
  { st with views := stateName :: st.views }

/-- `FlowController.exitFlow`: delete both reserved session keys. -/
def exitFlow (st : St) : St :=
  { st with session := { st.session with flowName := none, flowState := none } }

/-- `ctx.reply(text)`: succeeds (recording the send) or throws, according to
the transport flag. -/
def ctxReply (ctx : Ctx) (text : String) (st : St) : Except Unit Unit × St :=
  if ctx.replyOk then (Except.ok (), pushSent (SentMsg.reply text) st)
  else (Except.error (), st)

/-- `ctx.editMessageText(text, …)`. -/
def ctxEditMessageText (ctx : Ctx) (text : String) (st : St) : Except Unit Unit × St :=
  if ctx.editOk then (Except.ok (), pushSent (SentMsg.edit text) st)
  else (Except.error (), st)

/-- `ctx.answerCallbackQuery()`. -/
def ctxAnswerCallbackQuery (ctx : Ctx) (st : St) : Except Unit Unit × St :=
  if ctx.answerOk then (Except.ok (), pushSent SentMsg.answerCb st)
  else (Except.error (), st)

/-- JavaScript truthiness of an optional string: `undefined` and the empty
string are falsy. -/
def truthyStr : Option String → Option String
  | none => none
  | some s => if s = "" then none else some s

/-- Look up a state name in a flow config (JavaScript object indexing). -/
def lookupState : List (String × FlowState) → String → Option FlowState
  | [], _ => none
  | (k, s) :: rest, n => if k = n then some s else lookupState rest n

/-- The raw command input of `executeAction`:
`{ ...ctx.params, text: ctx.update.message?.text }`.  The `text` key is
always present (possibly with value `undefined`) and overrides any matched
parameter of the same name, as the object spread does. -/
def mkRawInput (params : List (String × String)) (u : Update) : Val :=
  Val.obj
    ((params.filter (fun p => p.1 != "text")).map (fun p => (p.1, Val.str p.2)) ++
      [("text",
        match u.message.bind Message.text with
        | some t => Val.str t
        | none => Val.undef)])

/-- Step 1 of `renderState`'s `try` block: the render data.  With no
`onEnter` query the props are the empty object `{}`; otherwise the query's
input contract is checked against `undefined`, the query is executed, and
its result is checked against the output contract (the parse result itself
is discarded, as in the source). -/
def enterProps (ctx : Ctx) (state : FlowState) (st : St) : Except Unit Val :=
  match state.onEnter with
  | none => Except.ok (Val.obj [])
  | some q =>
    match q.input.parse Val.undef with
    | Except.error e => Except.error e
    | Except.ok inp =>
      match q.execute inp ctx.update st.session with
      | Except.error e => Except.error e
      | Except.ok props =>
        match q.output.parse props with
        | Except.error e => Except.error e
        | Except.ok _ => Except.ok props

/-- Step 3 of `renderState`'s `try` block: deliver the payload — answer the
callback and edit in place when the update is a callback interaction, send
a new message otherwise. -/
def deliver (ctx : Ctx) (payload : MessagePayload) (st : St) :
    Except Unit Unit × St :=
  if ctx.update.callback_query.isSome then
    match ctxAnswerCallbackQuery ctx st with
    | (Except.error e, st2) => (Except.error e, st2)
    | (Except.ok _, st2) => ctxEditMessageText ctx payload.text st2
  else ctxReply ctx payload.text st

/-- The body of `renderState`'s `try` block: obtain the render data, invoke
the component, deliver the payload.  Any `Except.error` escaping this
function is an exception reaching `renderState`'s catch. -/
def renderBody (ctx : Ctx) (stateName : String) (state : FlowState) (st : St) :
    Except Unit Unit × St :=
  match enterProps ctx state st with
  | Except.error e => (Except.error e, st)
  | Except.ok props =>
    let st1 := pushView stateName st
    match state.component props with
    | Except.error e => (Except.error e, st1)
    | Except.ok payload => deliver ctx payload st1

/-- `FlowController.renderState`: look up the state (exiting the flow if it
does not exist), then run the render body; its catch block logs and sends
the fixed display-failure message (which may itself throw). -/
def renderState (fc : FlowController) (ctx : Ctx) (stateName : String) (st : St) :
    Except Unit Unit × St :=
  match lookupState fc.config stateName with
  | none =>
    (Except.ok (),
      exitFlow (pushLog ("Cannot render non-existent state " ++ stateName ++
        " in flow " ++ fc.name) st))
  | some state =>
    match renderBody ctx stateName state st with
    | (Except.ok _, st') => (Except.ok (), st')
    | (Except.error _, st') =>
      ctxReply ctx renderFailureMessage (pushLog renderErrorLog st')

/-- The transition decision of `executeAction`: with `refresh` set the
target is the current `session.flowState`; otherwise the `nextState`
selector (literal, or applied to the command result); otherwise none. -/
def resolveNextState (action : ActionHandler) (flowState : Option String)
    (result : Val) : Option String :=
  if action.refresh then flowState
  else
    match action.nextState with
    | some (NextStateSel.name s) => some s
    | some (NextStateSel.func f) => some (f result)
    | none => none

/-- The body of `executeAction`'s `try` block: validate the input, run the
command, validate the output, then either transition (writing
`session.flowState` before rendering) or exit the flow.  The source's
`if (nextStateName)` treats `undefined` and the empty string alike, which
`truthyStr` captures. -/
def execBody (fc : FlowController) (ctx : Ctx) (action : ActionHandler)
    (rawInput : Val) (st : St) : Except Unit Unit × St :=
  match action.command.input.parse rawInput with
  | Except.error e => (Except.error e, st)
  | Except.ok input =>
    match action.command.execute input ctx.update st.session with
    | Except.error e => (Except.error e, st)
    | Except.ok result =>
      match action.command.output.parse result with
      | Except.error e => (Except.error e, st)
      | Except.ok _ =>
        match truthyStr (resolveNextState action st.session.flowState result) with
        | some ns =>
          renderState fc ctx ns
            { st with session := { st.session with flowState := some ns } }
        | none => (Except.ok (), exitFlow st)

/-- `FlowController.executeAction`: the try body above, with a catch block
that logs and sends the fixed action-failure message (which may itself
throw). -/
def executeAction (fc : FlowController) (ctx : Ctx) (action : ActionHandler)
    (st : St) : Except Unit Unit × St :=
  match execBody fc ctx action (mkRawInput st.params ctx.update) st with
  | (Except.ok _, st') => (Except.ok (), st')
  | (Except.error _, st') =>
    ctxReply ctx actionFailureMessage (pushLog actionErrorLog st')

/-- The `processPatterns` closure of `FlowController.handle`: iterate the
pattern map in insertion order; on the first match, store the extracted
parameters in `ctx.params`, execute the action, and report `true`; report
`false` if nothing matched.  (The source's `match.groups` branch is dead for
every pattern class modelled here, and its `if (action)` guard always holds
for an entry produced by the `for…in` loop.) -/
def processPatterns (fc : FlowController) (ctx : Ctx) (text : String) :
    List (String × ActionHandler) → St → Except Unit Bool × St
  | [], st => (Except.ok false, st)
  | (pattern, action) :: rest, st =>
    match patternMatch pattern text with
    | some caps =>
      match executeAction fc ctx action
          { st with params := buildParams (extractParamNames pattern) caps } with
      | (Except.ok _, st') => (Except.ok true, st')
      | (Except.error e, st') => (Except.error e, st')
    | none => processPatterns fc ctx text rest st

/-- The part of `FlowController.handle` that runs once the current state
descriptor has been found: try the callback patterns against the callback
data (when truthy), then the text patterns against the message text (when
truthy), and fall back to re-rendering the current state. -/
def handleState (fc : FlowController) (ctx : Ctx) (stateName : String)
    (state : FlowState) (st : St) : Except Unit Bool × St :=
  match
    (match truthyStr (ctx.update.callback_query.bind CallbackQuery.data) with
     | some d => processPatterns fc ctx d state.onAction st
     | none => (Except.ok false, st)) with
  | (Except.error e, st1) => (Except.error e, st1)
  | (Except.ok true, st1) => (Except.ok true, st1)
  | (Except.ok false, st1) =>
    match
      (match truthyStr (ctx.update.message.bind Message.text) with
       | some t => processPatterns fc ctx t state.onText st1
       | none => (Except.ok false, st1)) with
    | (Except.error e, st2) => (Except.error e, st2)
    | (Except.ok true, st2) => (Except.ok true, st2)
    | (Except.ok false, st2) =>
      match renderState fc ctx stateName st2 with
      | (Except.ok _, st3) => (Except.ok true, st3)
      | (Except.error e, st3) => (Except.error e, st3)

/-- `FlowController.handle`: refuse updates for another flow, resolve the
current state name (`session.flowState ?? 'index'`), self-heal by exiting
when the state is missing from the config, and otherwise process the update
against that state. -/
def handle (fc : FlowController) (ctx : Ctx) (st : St) : Except Unit Bool × St :=
  if st.session.flowName = some fc.name then
    match lookupState fc.config (st.session.flowState.getD "index") with
    | none =>
      (Except.ok false,
        exitFlow (pushLog ("State " ++ st.session.flowState.getD "index" ++
          " not found in flow " ++ fc.name) st))
    | some state => handleState fc ctx (st.session.flowState.getD "index") state st
  else (Except.ok false, st)

/-- The top-level `try { … } catch (e) { console.error(…) }` of
`Router.handle`, restricted to the dispatch of a single flow: an exception
escaping `FlowController.handle` is caught here and only logged. -/
def routerHandleFlow (fc : FlowController) (ctx : Ctx) (st : St) : St :=
  match handle fc ctx st with
  | (Except.ok _, st') => st'
  | (Except.error _, st') => pushLog routerErrorLog st'

/-- Whether a compiled token is either a literal or the fixed capture class
`([^:]+)`. -/
def capExcludesColon : RTok → Bool
  | RTok.cap e => e == ':'
  | RTok.lit _ => true

/-- The event text selects the rule `(p, a)` with captures `caps` from a
pattern map: some split of the map has only non-matching patterns before
`(p, a)`, and `p` matches with captures `caps` (first-match-wins). -/
def firstMatchSelects (handlers : List (String × ActionHandler)) (text : String)
    (p : String) (a : ActionHandler) (caps : List String) : Prop :=
  ∃ pre rest, handlers = pre ++ (p, a) :: rest ∧
    (∀ q b, (q, b) ∈ pre → patternMatch q text = none) ∧
    patternMatch p text = some caps

/-- The event routed by `handle` reaches the rule `(p, a)`: either the
callback data is truthy and selects it among the state's `onAction`
patterns, or the callback branch matches nothing at all and the message
text is truthy and selects it among the `onText` patterns. -/
def routeSelects (ctx : Ctx) (state : FlowState) (p : String) (a : ActionHandler)
    (caps : List String) : Prop :=
  (∃ d, truthyStr (ctx.update.callback_query.bind CallbackQuery.data) = some d ∧
     firstMatchSelects state.onAction d p a caps) ∨
  ((∀ d, truthyStr (ctx.update.callback_query.bind CallbackQuery.data) = some d →
      ∀ q b, (q, b) ∈ state.onAction → patternMatch q d = none) ∧
   ∃ t, truthyStr (ctx.update.message.bind Message.text) = some t ∧
     firstMatchSelects state.onText t p a caps)

/-- One of the three guarded steps of `executeAction`'s try block throws:
the input validation, the command execution, or the output validation. -/
def pipelineThrows (a : ActionHandler) (ctx : Ctx) (sess : Session) (raw : Val) :
    Prop :=
  a.command.input.parse raw = Except.error () ∨
  (∃ inp, a.command.input.parse raw = Except.ok inp ∧
     a.command.execute inp ctx.update sess = Except.error ()) ∨
  (∃ inp res, a.command.input.parse raw = Except.ok inp ∧
     a.command.execute inp ctx.update sess = Except.ok res ∧
     a.command.output.parse res = Except.error ())

/-- The `onEnter` pipeline of a state succeeds for the given context:
either there is no query, or its input contract accepts `undefined`, its
execution returns, and its output passes the output contract. -/
def onEnterOk (ctx : Ctx) (S : FlowState) (st : St) : Prop :=
  match S.onEnter with
  | none => True
  | some q =>
    ∃ inp props v, q.input.parse Val.undef = Except.ok inp ∧
      q.execute inp ctx.update st.session = Except.ok props ∧
      q.output.parse props = Except.ok v

/-! ### Concrete fixtures for witnesses and counterexamples -/

/-- A schema that accepts any value unchanged. -/
def idSchema : ZodSchema := ⟨fun v => Except.ok v⟩

/-- A schema whose `parse` always throws. -/
def failSchema : ZodSchema := ⟨fun _ => Except.error ()⟩

/-- A command whose pipeline always succeeds, returning `1`. -/
def okCommand : BotCommand :=
  ⟨"ok", idSchema, idSchema, fun _ _ _ => Except.ok (Val.num 1)⟩

/-- A command whose input validation always throws. -/
def failCommand : BotCommand :=
  ⟨"bad", failSchema, idSchema, fun _ _ _ => Except.ok Val.undef⟩

/-- A component that always renders the text `screen`. -/
def demoComponent : Val → Except Unit MessagePayload :=
  fun _ => Except.ok ⟨"screen"⟩

/-- A state with no patterns and no query. -/
def demoState : FlowState := ⟨demoComponent, none, [], []⟩

/-- A one-state flow named `demo`. -/
def demoFlow : FlowController := ⟨"demo", [("index", demoState)]⟩

/-- A plain text-message update with a healthy transport. -/
def plainCtx : Ctx := ⟨⟨none, some ⟨some "hi"⟩⟩, true, true, true⟩

/-- A session outside every flow. -/
def outsideSt : St := ⟨⟨none, none, []⟩, [], [], [], []⟩

/-- A session claiming flow `demo` but a state name absent from its config. -/
def ghostSt : St := ⟨⟨some "demo", some "ghost", []⟩, [], [], [], []⟩

/-- A session inside flow `demo` with no `flowState` key. -/
def inDemoSt : St := ⟨⟨some "demo", none, []⟩, [], [], [], []⟩

/-- A state whose only rule runs the always-throwing command. -/
def failState : FlowState :=
  ⟨demoComponent, none, [("boom", ⟨failCommand, none, false⟩)], []⟩

/-- A flow containing `failState`. -/
def failFlow : FlowController := ⟨"f1", [("index", failState)]⟩

/-- A callback update carrying the data `boom`. -/
def boomCtx : Ctx := ⟨⟨some ⟨some "boom"⟩, none⟩, true, true, true⟩

/-- A session inside flow `f1`, state `index`. -/
def failSt : St := ⟨⟨some "f1", some "index", []⟩, [], [], [], []⟩

/-- A state whose only rule succeeds and has neither refresh nor
nextState: executing it exits the flow. -/
def exitRuleState : FlowState :=
  ⟨demoComponent, none, [("go", ⟨okCommand, none, false⟩)], []⟩

/-- A flow containing `exitRuleState`. -/
def exitDemoFlow : FlowController := ⟨"f3", [("index", exitRuleState)]⟩

/-- A callback update carrying the data `go`. -/
def goCtx : Ctx := ⟨⟨some ⟨some "go"⟩, none⟩, true, true, true⟩

/-- A session inside flow `f3`, state `index`, with one unrelated key. -/
def exitSt : St := ⟨⟨some "f3", some "index", [("k", Val.num 7)]⟩, [], [], [], []⟩

/-- A state whose only rule has both `refresh: true` and a `nextState`. -/
def refreshState : FlowState :=
  ⟨demoComponent, none,
   [("go", ⟨okCommand, some (NextStateSel.name "target"), true⟩)], []⟩

/-- A flow whose single state is named by the empty string. -/
def emptyNameFlow : FlowController := ⟨"f2", [("", refreshState)]⟩

/-- A session inside flow `f2` whose `flowState` is the empty string. -/
def emptyNameSt : St := ⟨⟨some "f2", some "", []⟩, [], [], [], []⟩

/-- A flow whose single state `s1` carries the refresh-plus-nextState rule. -/
def refreshFlow : FlowController := ⟨"fr", [("s1", refreshState)]⟩

/-- A session inside flow `fr`, state `s1`. -/
def refreshSt : St := ⟨⟨some "fr", some "s1", []⟩, [], [], [], []⟩

/-- A state with patterns on both maps, used to exercise the no-match
fallthrough. -/
def patternedState : FlowState :=
  ⟨demoComponent, none,
   [("inc", ⟨okCommand, none, false⟩)], [("hello", ⟨okCommand, none, false⟩)]⟩

/-- A flow containing `patternedState`. -/
def patternedFlow : FlowController := ⟨"f5", [("index", patternedState)]⟩

/-- An update whose callback data and message text match none of
`patternedState`'s patterns. -/
def noMatchCtx : Ctx := ⟨⟨some ⟨some "zzz"⟩, some ⟨some "qqq"⟩⟩, true, true, true⟩

/-- A session inside flow `f5`, state `index`. -/
def noMatchSt : St := ⟨⟨some "f5", some "index", []⟩, [], [], [], []⟩

/-- A callback update with no data whose edit call throws but whose reply
succeeds. -/
def brokenEditCtx : Ctx := ⟨⟨some ⟨none⟩, none⟩, true, false, true⟩

/-- A callback update with no data whose edit and reply calls both throw. -/
def brokenAllCtx : Ctx := ⟨⟨some ⟨none⟩, none⟩, false, false, true⟩


/-! ## Lemmas and claim theorems -/

theorem firstSome_eq_some {α : Type} (g : Nat → Option α) :
    ∀ (n : Nat) (r : α), firstSome g n = some r →
      ∃ k, 1 ≤ k ∧ k ≤ n ∧ g k = some r := by
  intro n
  induction n with
  | zero => intro r h; simp [firstSome] at h
  | succ n ih =>
    intro r h
    unfold firstSome at h
    cases hg : g (n + 1) with
    | some r' =>
      rw [hg] at h
      exact ⟨n + 1, by omega, by omega, by rw [hg, h.symm]⟩
    | none =>
      rw [hg] at h
      obtain ⟨k, hk1, hk2, hk3⟩ := ih r h
      exact ⟨k, hk1, by omega, hk3⟩

theorem take_ne_nil {α : Type} (k : Nat) (xs : List α) (hk : 1 ≤ k)
    (hxs : xs ≠ []) : xs.take k ≠ [] := by
  cases xs with
  | nil => exact absurd rfl hxs
  | cons x rest => cases k with
    | zero => omega
    | succ k => simp

theorem takeWhile_length_le {α : Type} (p : α → Bool) :
    ∀ (xs : List α), (xs.takeWhile p).length ≤ xs.length := by
  intro xs
  induction xs with
  | nil => simp [List.takeWhile]
  | cons x rest ih =>
    simp only [List.takeWhile]
    cases p x
    · simp
    · simp only [List.length_cons]
      omega

theorem matchToks_caps :
    ∀ (ts : List RTok) (xs : List Char) (caps : List (List Char)),
      matchToks ts xs = some caps →
      caps.length = countCaps ts ∧ ∀ c ∈ caps, c ≠ [] := by
  intro ts
  induction ts with
  | nil =>
    intro xs caps h
    unfold matchToks at h
    by_cases hx : xs.isEmpty
    · simp [hx] at h; subst h; simp [countCaps]
    · simp [hx] at h
  | cons t ts ih =>
    intro xs caps h
    cases t with
    | lit c =>
      cases xs with
      | nil => simp [matchToks] at h
      | cons x rest =>
        unfold matchToks at h
        by_cases hc : x == c
        · rw [if_pos hc] at h
          have := ih rest caps h
          simpa [countCaps] using this
        · rw [if_neg hc] at h; exact absurd h (by simp)
    | cap e =>
      unfold matchToks at h
      obtain ⟨k, hk1, hk2, hk3⟩ := firstSome_eq_some _ _ _ h
      cases hm : matchToks ts (xs.drop k) with
      | none => rw [hm] at hk3; simp at hk3
      | some caps' =>
        rw [hm] at hk3
        simp only [Option.some.injEq] at hk3
        obtain ⟨hlen, hne⟩ := ih _ _ hm
        have hxs : xs ≠ [] := by
          intro hnil
          rw [hnil] at hk2
          simp [List.takeWhile] at hk2
          omega
        subst hk3
        constructor
        · simp [countCaps, hlen]
        · intro c hc
          rcases List.mem_cons.mp hc with h1 | h1
          · subst h1; exact take_ne_nil k xs hk1 hxs
          · exact hne c h1

theorem scanNames_ne_nil :
    ∀ (l : List Char) (m : Option (List Char)),
      (∀ cs, m = some cs → (cs ≠ [] ∨ headIsWord l = true)) →
      ∀ s ∈ scanNames m l, s ≠ "" := by
  intro l
  induction l with
  | nil =>
    intro m hm s hs
    cases m with
    | none => simp [scanNames] at hs
    | some cs =>
      simp [scanNames] at hs
      rcases hm cs rfl with h | h
      · subst hs
        intro habs
        have : cs.reverse = [] := congrArg String.data habs
        exact h (by simpa using this)
      · simp [headIsWord] at h
  | cons c rest ih =>
    intro m hm s hs
    cases m with
    | none =>
      unfold scanNames at hs
      by_cases hcond : (c == ':' && headIsWord rest) = true
      · rw [if_pos hcond] at hs
        refine ih (some []) ?_ s hs
        intro cs hcs
        cases hcs
        exact Or.inr (Bool.and_elim_right hcond)
      · rw [if_neg hcond] at hs
        exact ih none (by simp) s hs
    | some cs =>
      unfold scanNames at hs
      by_cases hw : isWordChar c = true
      · rw [if_pos hw] at hs
        exact ih (some (c :: cs)) (by simp) s hs
      · rw [if_neg hw] at hs
        rcases List.mem_cons.mp hs with h1 | h1
        · subst h1
          have hcs : cs ≠ [] := by
            rcases hm cs rfl with h | h
            · exact h
            · simp [headIsWord] at h; exact absurd h hw
          intro habs
          have : cs.reverse = [] := congrArg String.data habs
          exact hcs (by simpa using this)
        · by_cases hcond : (c == ':' && headIsWord rest) = true
          · rw [if_pos hcond] at h1
            refine ih (some []) ?_ s h1
            intro cs' hcs'
            cases hcs'
            exact Or.inr (Bool.and_elim_right hcond)
          · rw [if_neg hcond] at h1
            exact ih none (by simp) s h1

theorem countCaps_scan :
    ∀ (l : List Char),
      countCaps (scanTokens false l) = (scanNames none l).length ∧
      ∀ cs, countCaps (scanTokens true l) + 1 = (scanNames (some cs) l).length := by
  intro l
  induction l with
  | nil => simp [scanTokens, scanNames, countCaps]
  | cons c rest ih =>
    obtain ⟨ih1, ih2⟩ := ih
    constructor
    · cases hcond : (c == ':' && headIsWord rest) with
      | true =>
        simp [scanTokens, scanNames, hcond, countCaps]
        have h2 := ih2 []
        omega
      | false =>
        simp [scanTokens, scanNames, hcond, countCaps]
        exact ih1
    · intro cs
      cases hw : isWordChar c with
      | true =>
        simp [scanTokens, scanNames, hw]
        exact ih2 (c :: cs)
      | false =>
        cases hcond : (c == ':' && headIsWord rest) with
        | true =>
          simp [scanTokens, scanNames, hw, hcond, countCaps]
          have h2 := ih2 []
          omega
        | false =>
          simp [scanTokens, scanNames, hw, hcond, countCaps]
          omega

theorem scanNames_no_colon :
    ∀ (l : List Char), hasColon l = false → scanNames none l = [] := by
  intro l
  induction l with
  | nil => intro _; rfl
  | cons c rest ih =>
    intro h
    simp only [hasColon, Bool.or_eq_false_iff] at h
    simp only [scanNames, h.1, Bool.false_and, if_false]
    exact ih h.2

theorem scanTokens_cap_colon :
    ∀ (l : List Char) (b : Bool),
      (scanTokens b l).all capExcludesColon = true := by
  intro l
  induction l with
  | nil => intro b; rfl
  | cons c rest ih =>
    intro b
    cases h1 : (b && isWordChar c) with
    | true =>
      simp [scanTokens, h1]
      simpa using ih true
    | false =>
      cases h2 : (c == ':' && headIsWord rest) with
      | true =>
        simp [scanTokens, h1, h2, capExcludesColon]
        simpa using ih true
      | false =>
        simp [scanTokens, h1, h2, capExcludesColon]
        simpa using ih false

/-- C7 — counterexample.  The claim says the capture compiled for a
placeholder excludes the literal delimiter that follows the placeholder in
the template.  On the template `order/:id/view` the delimiter after `:id`
is `/`, so the claimed compilation (`specPathToRegex`) produces a group
excluding `/`; the source's `pathStringToRegex` instead produces the fixed
group `([^:]+)`.  The two compilations differ, and they disagree
behaviourally on the input `order/a:b/view`: the claimed regex matches it
with `id = "a:b"` while the compiled regex of the code rejects it. -/
theorem placeholder_class_counterexample :
    pathStringToRegex "order/:id/view" ≠ specPathToRegex "order/:id/view" ∧
    matchToks (pathStringToRegex "order/:id/view") "order/a:b/view".data = none ∧
    matchToks (specPathToRegex "order/:id/view") "order/a:b/view".data =
      some ["a:b".data] :=
  ⟨by decide, by decide, by decide⟩

/-- C7 — amended: every capturing group produced by
`pathStringToRegex` is the fixed class `([^:]+)`, excluding the colon
regardless of which delimiter follows the placeholder in the template. -/
theorem placeholder_fixed_colon_class :
    ∀ path : String, (pathStringToRegex path).all capExcludesColon = true :=
  fun path => scanTokens_cap_colon path.data false

/-- C8: matching the template `user:::id` against `user::456` succeeds and
produces `params = { id: "456" }`; and in general, since no modelled pattern
exposes named capture groups, a successful match pairs the positional
captures one-to-one, in order, with the placeholder names extracted from
the original template string — the param-building filter drops nothing and
the counts always agree. -/
theorem template_param_extraction :
    (patternMatch "user:::id" "user::456" = some ["456"] ∧
     buildParams (extractParamNames "user:::id") ["456"] = [("id", "456")]) ∧
    ∀ (pattern text : String) (caps : List String),
      patternMatch pattern text = some caps →
      caps.length = (extractParamNames pattern).length ∧
      buildParams (extractParamNames pattern) caps =
        (extractParamNames pattern).zip caps := by
  constructor
  · exact ⟨by decide, by decide⟩
  · intro pattern text caps h
    unfold patternMatch at h
    by_cases hc : hasColon pattern.data = true
    · rw [if_pos hc] at h
      cases hm : matchToks (pathStringToRegex pattern) text.data with
      | none => rw [hm] at h; simp at h
      | some caps0 =>
        rw [hm] at h
        simp only [Option.some.injEq] at h
        subst h
        obtain ⟨hlen, hne⟩ := matchToks_caps _ _ _ hm
        have hnames := (countCaps_scan pattern.data).1
        have hlen2 : caps0.length = (extractParamNames pattern).length := by
          rw [hlen]; exact hnames
        constructor
        · simpa using hlen2
        · apply List.filter_eq_self.mpr
          intro p hp
          obtain ⟨hp1, hp2⟩ := List.of_mem_zip hp
          have h1 : p.1 ≠ "" := scanNames_ne_nil pattern.data none (by simp) p.1 hp1
          obtain ⟨c0, hc0, hc0e⟩ := List.mem_map.mp hp2
          have h2 : p.2 ≠ "" := by
            intro habs
            rw [habs] at hc0e
            have : c0 = [] := congrArg String.data hc0e
            exact hne c0 hc0 this
          simp [bne_iff_ne.mpr h1, bne_iff_ne.mpr h2]
    · rw [if_neg hc] at h
      by_cases hs : containsSeq pattern.data text.data = true
      · rw [if_pos hs] at h
        simp only [Option.some.injEq] at h
        subst h
        have hnil : extractParamNames pattern = [] :=
          scanNames_no_colon pattern.data (by simpa using hc)
        rw [hnil]
        simp [buildParams]
      · rw [if_neg hs] at h; exact absurd h (by simp)

/-- C8 — witness: a concrete application of the general pairing statement
to the template `:a` matched against `hello`. -/
theorem template_param_extraction_witness :
    patternMatch ":a" "hello" = some ["hello"] ∧
    buildParams (extractParamNames ":a") ["hello"] =
      (extractParamNames ":a").zip ["hello"] :=
  ⟨by decide, (template_param_extraction.2 ":a" "hello" ["hello"] (by decide)).2⟩

theorem processPatterns_nomatch (fc : FlowController) (ctx : Ctx) (d : String) :
    ∀ (hs : List (String × ActionHandler)) (st : St),
      (∀ q b, (q, b) ∈ hs → patternMatch q d = none) →
      processPatterns fc ctx d hs st = (Except.ok false, st) := by
  intro hs
  induction hs with
  | nil => intro st _; rfl
  | cons qa rest ih =>
    intro st h
    obtain ⟨q, b⟩ := qa
    have hq : patternMatch q d = none := h q b (List.mem_cons_self _ _)
    simp only [processPatterns, hq]
    exact ih st (fun q' b' hm => h q' b' (List.mem_cons_of_mem _ hm))

theorem processPatterns_first (fc : FlowController) (ctx : Ctx) (d : String)
    (p : String) (a : ActionHandler) (caps : List String) :
    ∀ (pre rest : List (String × ActionHandler)) (st : St),
      (∀ q b, (q, b) ∈ pre → patternMatch q d = none) →
      patternMatch p d = some caps →
      processPatterns fc ctx d (pre ++ (p, a) :: rest) st =
        (match executeAction fc ctx a
            { st with params := buildParams (extractParamNames p) caps } with
         | (Except.ok _, st') => (Except.ok true, st')
         | (Except.error e, st') => (Except.error e, st')) := by
  intro pre
  induction pre with
  | nil =>
    intro rest st _ hp
    simp only [List.nil_append, processPatterns, hp]
  | cons qb pre' ih =>
    intro rest st h hp
    obtain ⟨q, b⟩ := qb
    have hq : patternMatch q d = none := h q b (List.mem_cons_self _ _)
    simp only [List.cons_append, processPatterns, hq]
    exact ih rest st (fun q' b' hm => h q' b' (List.mem_cons_of_mem _ hm)) hp

theorem executeAction_throws (fc : FlowController) (ctx : Ctx)
    (a : ActionHandler) (st : St)
    (hthrow : pipelineThrows a ctx st.session (mkRawInput st.params ctx.update))
    (hreply : ctx.replyOk = true) :
    executeAction fc ctx a st =
      (Except.ok (),
        { st with logs := actionErrorLog :: st.logs,
                  sent := SentMsg.reply actionFailureMessage :: st.sent }) := by
  have hbody : execBody fc ctx a (mkRawInput st.params ctx.update) st =
      (Except.error (), st) := by
    rcases hthrow with h1 | ⟨inp, h1, h2⟩ | ⟨inp, res, h1, h2, h3⟩
    · simp only [execBody, h1]
    · simp only [execBody, h1, h2]
    · simp only [execBody, h1, h2, h3]
  simp only [executeAction, hbody, ctxReply, hreply, if_true, pushLog, pushSent]

theorem pushSent_session (m : SentMsg) (st : St) :
    (pushSent m st).session = st.session := rfl

theorem ctxReply_session (ctx : Ctx) (t : String) (st : St) :
    ((ctxReply ctx t st).2).session = st.session := by
  unfold ctxReply
  split <;> rfl

theorem ctxEdit_session (ctx : Ctx) (t : String) (st : St) :
    ((ctxEditMessageText ctx t st).2).session = st.session := by
  unfold ctxEditMessageText
  split <;> rfl

theorem ctxAnswer_session (ctx : Ctx) (st : St) :
    ((ctxAnswerCallbackQuery ctx st).2).session = st.session := by
  unfold ctxAnswerCallbackQuery
  split <;> rfl

theorem deliver_session (ctx : Ctx) (payload : MessagePayload) (st : St) :
    ((deliver ctx payload st).2).session = st.session := by
  unfold deliver
  by_cases hq : ctx.update.callback_query.isSome
  · rw [if_pos hq]
    rcases hA : ctxAnswerCallbackQuery ctx st with ⟨r, st2⟩
    have h2 : st2.session = st.session := by
      have := ctxAnswer_session ctx st
      rw [hA] at this
      exact this
    cases r with
    | error e => simpa using h2
    | ok _ =>
      simp only
      rw [ctxEdit_session]
      exact h2
  · rw [if_neg hq]
    exact ctxReply_session ctx payload.text st

theorem renderBody_session (ctx : Ctx) (n : String) (S : FlowState) (st : St) :
    ((renderBody ctx n S st).2).session = st.session := by
  unfold renderBody
  cases hp : enterProps ctx S st with
  | error e => rfl
  | ok props =>
    simp only
    cases hc : S.component props with
    | error e => rfl
    | ok payload =>
      simp only
      rw [deliver_session]
      rfl

theorem renderState_session (fc : FlowController) (ctx : Ctx) (n : String)
    (st : St) (S : FlowState) (h : lookupState fc.config n = some S) :
    ((renderState fc ctx n st).2).session = st.session := by
  unfold renderState
  rw [h]
  dsimp only
  rcases hb : renderBody ctx n S st with ⟨r, st1⟩
  have h1 : st1.session = st.session := by
    have := renderBody_session ctx n S st
    rw [hb] at this
    exact this
  cases r with
  | ok _ => simpa using h1
  | error e =>
    simp only
    rw [ctxReply_session]
    exact h1

theorem executeAction_exit (fc : FlowController) (ctx : Ctx) (a : ActionHandler)
    (st : St) (inp res v : Val)
    (hin : a.command.input.parse (mkRawInput st.params ctx.update) = Except.ok inp)
    (hex : a.command.execute inp ctx.update st.session = Except.ok res)
    (hout : a.command.output.parse res = Except.ok v)
    (hnores : truthyStr (resolveNextState a st.session.flowState res) = none) :
    executeAction fc ctx a st = (Except.ok (), exitFlow st) := by
  have hbody : execBody fc ctx a (mkRawInput st.params ctx.update) st =
      (Except.ok (), exitFlow st) := by
    simp only [execBody, hin, hex, hout, hnores]
  simp only [executeAction, hbody]

theorem executeAction_transition (fc : FlowController) (ctx : Ctx)
    (a : ActionHandler) (st : St) (inp res v : Val) (ns : String)
    (hin : a.command.input.parse (mkRawInput st.params ctx.update) = Except.ok inp)
    (hex : a.command.execute inp ctx.update st.session = Except.ok res)
    (hout : a.command.output.parse res = Except.ok v)
    (hns : truthyStr (resolveNextState a st.session.flowState res) = some ns) :
    executeAction fc ctx a st =
      (match renderState fc ctx ns
          { st with session := { st.session with flowState := some ns } } with
       | (Except.ok _, st') => (Except.ok (), st')
       | (Except.error _, st') =>
         ctxReply ctx actionFailureMessage (pushLog actionErrorLog st')) := by
  have hbody : execBody fc ctx a (mkRawInput st.params ctx.update) st =
      renderState fc ctx ns
        { st with session := { st.session with flowState := some ns } } := by
    simp only [execBody, hin, hex, hout, hns]
  simp only [executeAction, hbody]

theorem handle_selects (fc : FlowController) (ctx : Ctx) (st : St) (S : FlowState)
    (p : String) (a : ActionHandler) (caps : List String)
    (hname : st.session.flowName = some fc.name)
    (hS : lookupState fc.config (st.session.flowState.getD "index") = some S)
    (hroute : routeSelects ctx S p a caps) :
    handle fc ctx st =
      (match executeAction fc ctx a
          { st with params := buildParams (extractParamNames p) caps } with
       | (Except.ok _, st') => (Except.ok true, st')
       | (Except.error e, st') => (Except.error e, st')) := by
  unfold handle
  rw [if_pos hname, hS]
  dsimp only
  unfold handleState
  unfold routeSelects firstMatchSelects at hroute
  rcases hroute with ⟨d, hd, pre, rest, hsplit, hpre, hp⟩ |
    ⟨hnall, t, ht, pre, rest, hsplit, hpre, hp⟩
  · rw [hd]
    dsimp only
    rw [hsplit, processPatterns_first fc ctx d p a caps pre rest st hpre hp]
    rcases hEA : executeAction fc ctx a
        { st with params := buildParams (extractParamNames p) caps } with ⟨r, st'⟩
    cases r with
    | ok _ => rfl
    | error e => rfl
  · have hcbeq :
        (match truthyStr (ctx.update.callback_query.bind CallbackQuery.data) with
         | some d => processPatterns fc ctx d S.onAction st
         | none => (Except.ok false, st)) = (Except.ok false, st) := by
      cases hcb : truthyStr (ctx.update.callback_query.bind CallbackQuery.data) with
      | none => rfl
      | some d =>
        dsimp only
        exact processPatterns_nomatch fc ctx d S.onAction st (hnall d hcb)
    rw [hcbeq]
    dsimp only
    rw [ht]
    dsimp only
    rw [hsplit, processPatterns_first fc ctx t p a caps pre rest st hpre hp]
    rcases hEA : executeAction fc ctx a
        { st with params := buildParams (extractParamNames p) caps } with ⟨r, st'⟩
    cases r with
    | ok _ => rfl
    | error e => rfl

/-- C6: for any flow `fc` and any context whose session `flowName` differs
from `fc.name` (including an absent key), `handle` returns `false` and the
state — session included — is returned entirely unchanged: no key is added,
removed, or modified, nothing is sent, nothing is logged. -/
theorem foreign_flow_handle_noop (fc : FlowController) (ctx : Ctx) (st : St)
    (h : ¬ st.session.flowName = some fc.name) :
    handle fc ctx st = (Except.ok false, st) := by
  unfold handle
  rw [if_neg h]

/-- C6 — witness: the `demo` flow ignores a conversation outside any flow. -/
theorem foreign_flow_handle_noop_witness :
    handle demoFlow plainCtx outsideSt = (Except.ok false, outsideSt) :=
  foreign_flow_handle_noop demoFlow plainCtx outsideSt (by decide)

/-- C4: when the session names this flow but the resolved current state
name is absent from the flow's config, `handle` logs the diagnostic,
deletes both reserved session keys, and returns `false` — and the final
state shows no action was executed and nothing was rendered or sent. -/
theorem missing_state_self_heal (fc : FlowController) (ctx : Ctx) (st : St)
    (hname : st.session.flowName = some fc.name)
    (hmiss : lookupState fc.config (st.session.flowState.getD "index") = none) :
    handle fc ctx st =
      (Except.ok false,
        { st with
            session := { st.session with flowName := none, flowState := none },
            logs := ("State " ++ st.session.flowState.getD "index" ++
              " not found in flow " ++ fc.name) :: st.logs }) := by
  unfold handle
  rw [if_pos hname, hmiss]
  rfl

/-- C4 — witness: flow `demo` with the session naming the absent state
`ghost`. -/
theorem missing_state_self_heal_witness :
    handle demoFlow plainCtx ghostSt =
      (Except.ok false,
        { ghostSt with
            session := { ghostSt.session with flowName := none, flowState := none },
            logs := ("State ghost not found in flow demo") :: ghostSt.logs }) :=
  missing_state_self_heal demoFlow plainCtx ghostSt rfl rfl

/-- C1: if the event reaches a matched Transition Rule whose input
validation, command execution, or output validation throws, then `handle`
returns normally (reporting `true`), the session is bit-for-bit unchanged —
in particular `flowName` and `flowState` keep their pre-call values — the
diagnostic is logged, and the fixed action-failure message is the single
new transport delivery (sent exactly once). -/
theorem flow_action_failure_preserves_session (fc : FlowController) (ctx : Ctx)
    (st : St) (S : FlowState) (p : String) (a : ActionHandler) (caps : List String)
    (hname : st.session.flowName = some fc.name)
    (hS : lookupState fc.config (st.session.flowState.getD "index") = some S)
    (hroute : routeSelects ctx S p a caps)
    (hthrow : pipelineThrows a ctx st.session
      (mkRawInput (buildParams (extractParamNames p) caps) ctx.update))
    (hreply : ctx.replyOk = true) :
    handle fc ctx st =
      (Except.ok true,
        { st with params := buildParams (extractParamNames p) caps,
                  logs := actionErrorLog :: st.logs,
                  sent := SentMsg.reply actionFailureMessage :: st.sent }) := by
  rw [handle_selects fc ctx st S p a caps hname hS hroute]
  rw [executeAction_throws fc ctx a
    { st with params := buildParams (extractParamNames p) caps } hthrow hreply]

/-- C1 — witness: flow `f1` whose rule `boom` runs a command with an
always-throwing input schema; the session survives and exactly one failure
reply is recorded. -/
theorem flow_action_failure_preserves_session_witness :
    handle failFlow boomCtx failSt =
      (Except.ok true,
        { failSt with params := buildParams (extractParamNames "boom") [],
                      logs := actionErrorLog :: failSt.logs,
                      sent := SentMsg.reply actionFailureMessage :: failSt.sent }) :=
  flow_action_failure_preserves_session failFlow boomCtx failSt failState "boom"
    ⟨failCommand, none, false⟩ [] rfl rfl
    (Or.inl ⟨"boom", rfl, [], [], rfl, by simp, by decide⟩)
    (Or.inl rfl) rfl

/-- C3: executing a matched Transition Rule with no `refresh` and no
resolvable `nextState` (absent, or resolving to a falsy name) deletes both
reserved session keys together: afterwards `flowName` and `flowState` are
both absent — never just one of them. -/
theorem exit_clears_both_session_keys (fc : FlowController) (ctx : Ctx)
    (st : St) (S : FlowState) (p : String) (a : ActionHandler) (caps : List String)
    (inp res v : Val)
    (hname : st.session.flowName = some fc.name)
    (hS : lookupState fc.config (st.session.flowState.getD "index") = some S)
    (hroute : routeSelects ctx S p a caps)
    (hin : a.command.input.parse
      (mkRawInput (buildParams (extractParamNames p) caps) ctx.update) =
      Except.ok inp)
    (hex : a.command.execute inp ctx.update st.session = Except.ok res)
    (hout : a.command.output.parse res = Except.ok v)
    (_hrefresh : a.refresh = false)
    (hnores : truthyStr (resolveNextState a st.session.flowState res) = none) :
    ∃ st', handle fc ctx st = (Except.ok true, st') ∧
      st'.session.flowName = none ∧ st'.session.flowState = none := by
  rw [handle_selects fc ctx st S p a caps hname hS hroute]
  rw [executeAction_exit fc ctx a
    { st with params := buildParams (extractParamNames p) caps } inp res v
    hin hex hout hnores]
  exact ⟨exitFlow { st with params := buildParams (extractParamNames p) caps },
    rfl, rfl, rfl⟩

/-- C3 — witness: flow `f3` whose rule `go` succeeds with no `nextState`;
both keys end up absent while the unrelated session key survives. -/
theorem exit_clears_both_session_keys_witness :
    (handle exitDemoFlow goCtx exitSt).2.session.flowName = none ∧
    (handle exitDemoFlow goCtx exitSt).2.session.flowState = none := by
  obtain ⟨st', h1, h2, h3⟩ :=
    exit_clears_both_session_keys exitDemoFlow goCtx exitSt exitRuleState "go"
      ⟨okCommand, none, false⟩ []
      (mkRawInput (buildParams (extractParamNames "go") []) goCtx.update)
      (Val.num 1) (Val.num 1) rfl rfl
      (Or.inl ⟨"go", rfl, [], [], rfl, by simp, by decide⟩)
      rfl rfl rfl rfl rfl
  rw [h1]
  exact ⟨h2, h3⟩

/-- C10: when the session names this flow but carries no `flowState` key,
`handle` does not treat the situation as an error: the current state name
resolves to the default `index`, and — provided `index` exists in the
config — the update is processed against that state exactly as usual
(pattern matching, then rendering); in particular `handle` never reports
`false` in this situation. -/
theorem missing_flow_state_defaults_to_index (fc : FlowController) (ctx : Ctx)
    (st : St) (S : FlowState)
    (hname : st.session.flowName = some fc.name)
    (hnostate : st.session.flowState = none)
    (hidx : lookupState fc.config "index" = some S) :
    handle fc ctx st = handleState fc ctx "index" S st ∧
    ∀ (b : Bool) (st' : St), handle fc ctx st = (Except.ok b, st') → b = true := by
  have h1 : handle fc ctx st = handleState fc ctx "index" S st := by
    unfold handle
    rw [if_pos hname, hnostate]
    simp only [Option.getD_none]
    rw [hidx]
  refine ⟨h1, ?_⟩
  intro b st' h
  rw [h1] at h
  unfold handleState at h
  rcases hA : (match truthyStr (ctx.update.callback_query.bind CallbackQuery.data) with
     | some d => processPatterns fc ctx d S.onAction st
     | none => (Except.ok false, st)) with ⟨r1, st1⟩
  rw [hA] at h
  cases r1 with
  | error e => simp at h
  | ok b1 =>
    cases b1 with
    | true =>
      simp only [Prod.mk.injEq, Except.ok.injEq] at h
      exact h.1.symm
    | false =>
      dsimp only at h
      rcases hB : (match truthyStr (ctx.update.message.bind Message.text) with
         | some t => processPatterns fc ctx t S.onText st1
         | none => (Except.ok false, st1)) with ⟨r2, st2⟩
      rw [hB] at h
      cases r2 with
      | error e => simp at h
      | ok b2 =>
        cases b2 with
        | true =>
          simp only [Prod.mk.injEq, Except.ok.injEq] at h
          exact h.1.symm
        | false =>
          dsimp only at h
          rcases hC : renderState fc ctx "index" st2 with ⟨r3, st3⟩
          rw [hC] at h
          cases r3 with
          | error e => simp at h
          | ok _ =>
            simp only [Prod.mk.injEq, Except.ok.injEq] at h
            exact h.1.symm

/-- C10 — witness: flow `demo`, session `{ flowName: "demo" }` with no
`flowState` key: `handle` processes the update against state `index`. -/
theorem missing_flow_state_defaults_to_index_witness :
    handle demoFlow plainCtx inDemoSt =
      handleState demoFlow plainCtx "index" demoState inDemoSt :=
  (missing_flow_state_defaults_to_index demoFlow plainCtx inDemoSt demoState
    rfl rfl rfl).1

theorem enterProps_ok (ctx : Ctx) (S : FlowState) (st : St)
    (henter : onEnterOk ctx S st) :
    ∃ props, enterProps ctx S st = Except.ok props := by
  unfold onEnterOk at henter
  cases hq : S.onEnter with
  | none => exact ⟨Val.obj [], by simp only [enterProps, hq]⟩
  | some q =>
    rw [hq] at henter
    obtain ⟨inp, props, v, h1, h2, h3⟩ := henter
    exact ⟨props, by simp only [enterProps, hq, h1, h2, h3]⟩

theorem deliver_ok (ctx : Ctx) (payload : MessagePayload) (st : St)
    (hreply : ctx.replyOk = true) (hedit : ctx.editOk = true)
    (hans : ctx.answerOk = true) :
    ∃ st', deliver ctx payload st = (Except.ok (), st') ∧
      st'.session = st.session ∧ st'.views = st.views := by
  unfold deliver
  by_cases hq : ctx.update.callback_query.isSome
  · rw [if_pos hq]
    simp only [ctxAnswerCallbackQuery, hans, if_true]
    simp only [ctxEditMessageText, hedit, if_true]
    exact ⟨_, rfl, rfl, rfl⟩
  · rw [if_neg hq]
    simp only [ctxReply, hreply, if_true]
    exact ⟨_, rfl, rfl, rfl⟩

theorem renderState_rerender_ok (fc : FlowController) (ctx : Ctx) (n : String)
    (st : St) (S : FlowState)
    (hS : lookupState fc.config n = some S)
    (hreply : ctx.replyOk = true) (hedit : ctx.editOk = true)
    (hans : ctx.answerOk = true)
    (henter : onEnterOk ctx S st) :
    ∃ st', renderState fc ctx n st = (Except.ok (), st') ∧
      st'.session = st.session ∧ st'.views = n :: st.views := by
  unfold renderState
  rw [hS]
  dsimp only
  obtain ⟨props, hp⟩ := enterProps_ok ctx S st henter
  cases hcomp : S.component props with
  | error e =>
    have hb : renderBody ctx n S st = (Except.error e, pushView n st) := by
      simp only [renderBody, hp, hcomp]
    rw [hb]
    simp only [ctxReply, hreply, if_true]
    exact ⟨_, rfl, rfl, rfl⟩
  | ok payload =>
    have hb : renderBody ctx n S st = deliver ctx payload (pushView n st) := by
      simp only [renderBody, hp, hcomp]
    rw [hb]
    obtain ⟨st', hd, hsess, hviews⟩ :=
      deliver_ok ctx payload (pushView n st) hreply hedit hans
    rw [hd]
    exact ⟨st', rfl, hsess, hviews⟩

/-- C5: when the conversation sits in an existing state `S` of the flow and
the event matches none of `S`'s callback patterns and none of its text
patterns, `handle` consumes the event and reports `true`, re-invoking `S`'s
view function (the ghost trace gains the current state name) and leaving
the whole session — `flowState` in particular — unchanged.  The rendering
hypotheses say the transport and the optional `onEnter` query behave
normally; the view is invoked even if it subsequently throws. -/
theorem unmatched_event_rerenders_current_state (fc : FlowController)
    (ctx : Ctx) (st : St) (S : FlowState)
    (hname : st.session.flowName = some fc.name)
    (hS : lookupState fc.config (st.session.flowState.getD "index") = some S)
    (hcb : ∀ d, truthyStr (ctx.update.callback_query.bind CallbackQuery.data) =
       some d → ∀ q b, (q, b) ∈ S.onAction → patternMatch q d = none)
    (htxt : ∀ t, truthyStr (ctx.update.message.bind Message.text) = some t →
       ∀ q b, (q, b) ∈ S.onText → patternMatch q t = none)
    (hreply : ctx.replyOk = true) (hedit : ctx.editOk = true)
    (hans : ctx.answerOk = true)
    (henter : onEnterOk ctx S st) :
    ∃ st', handle fc ctx st = (Except.ok true, st') ∧
      st'.session = st.session ∧
      st'.views = (st.session.flowState.getD "index") :: st.views := by
  unfold handle
  rw [if_pos hname, hS]
  dsimp only
  unfold handleState
  have hcbeq :
      (match truthyStr (ctx.update.callback_query.bind CallbackQuery.data) with
       | some d => processPatterns fc ctx d S.onAction st
       | none => (Except.ok false, st)) = (Except.ok false, st) := by
    cases hc : truthyStr (ctx.update.callback_query.bind CallbackQuery.data) with
    | none => rfl
    | some d =>
      dsimp only
      exact processPatterns_nomatch fc ctx d S.onAction st (hcb d hc)
  rw [hcbeq]
  dsimp only
  have htxteq :
      (match truthyStr (ctx.update.message.bind Message.text) with
       | some t => processPatterns fc ctx t S.onText st
       | none => (Except.ok false, st)) = (Except.ok false, st) := by
    cases hc : truthyStr (ctx.update.message.bind Message.text) with
    | none => rfl
    | some t =>
      dsimp only
      exact processPatterns_nomatch fc ctx t S.onText st (htxt t hc)
  rw [htxteq]
  dsimp only
  obtain ⟨st', hr, hsess, hviews⟩ :=
    renderState_rerender_ok fc ctx (st.session.flowState.getD "index") st S
      hS hreply hedit hans henter
  rw [hr]
  exact ⟨st', rfl, hsess, hviews⟩

/-- C5 — witness: flow `demo` in state `index` (resolved from an absent
`flowState`), a plain text update matching nothing: the state is
re-rendered and the session untouched. -/
theorem unmatched_event_rerenders_current_state_witness :
    (handle demoFlow plainCtx inDemoSt).1 = Except.ok true ∧
    (handle demoFlow plainCtx inDemoSt).2.session = inDemoSt.session ∧
    (handle demoFlow plainCtx inDemoSt).2.views = ["index"] := by
  obtain ⟨st', h1, h2, h3⟩ :=
    unmatched_event_rerenders_current_state demoFlow plainCtx inDemoSt demoState
      rfl rfl
      (by intro d hd q b hq; simp [demoState] at hq)
      (by intro t ht q b hq; simp [demoState] at hq)
      rfl rfl rfl trivial
  rw [h1]
  exact ⟨rfl, h2, by simpa using h3⟩

/-- C2 — counterexample.  The claim says that after successful execution of
a rule with both `refresh: true` and a `nextState`, the session's
`flowState` equals its pre-action value.  In flow `f2` the conversation
sits in the state named by the empty string (`flowState = ""`); its rule
`go` has `refresh: true` and `nextState: "target"`, and the command
succeeds — yet afterwards `flowState` is absent, not `""`: the refresh
target is read back from `session.flowState`, and the source's
`if (nextStateName)` treats the empty string as falsy, so the rule exits
the flow instead of re-rendering. -/
theorem refresh_empty_state_counterexample :
    emptyNameSt.session.flowState = some "" ∧
    (handle emptyNameFlow goCtx emptyNameSt).1 = Except.ok true ∧
    (handle emptyNameFlow goCtx emptyNameSt).2.session.flowState = none ∧
    (handle emptyNameFlow goCtx emptyNameSt).2.session.flowName = none :=
  ⟨rfl, rfl, rfl, rfl⟩

/-- C2 — amended: for a matched rule with `refresh: true` and a `nextState`
selector, after the command succeeds (i) if the pre-action `flowState` is a
nonempty string it is preserved exactly (refresh wins; the conversation
stays in its current state and `flowName` is untouched), (ii) if the
pre-action `flowState` is absent or the empty string the rule instead
exits the flow, deleting both keys — and in every case the `nextState`
selector is never consulted: `executeAction` is invariant under replacing
it by any other selector when `refresh` is set. -/
theorem refresh_precedence_amended (fc : FlowController) (ctx : Ctx) (st : St)
    (S : FlowState) (p : String) (a : ActionHandler) (caps : List String)
    (inp res v : Val)
    (hname : st.session.flowName = some fc.name)
    (hS : lookupState fc.config (st.session.flowState.getD "index") = some S)
    (hroute : routeSelects ctx S p a caps)
    (hin : a.command.input.parse
      (mkRawInput (buildParams (extractParamNames p) caps) ctx.update) =
      Except.ok inp)
    (hex : a.command.execute inp ctx.update st.session = Except.ok res)
    (hout : a.command.output.parse res = Except.ok v)
    (hrefresh : a.refresh = true)
    (_hnext : a.nextState.isSome = true) :
    ((∀ s, st.session.flowState = some s → ¬ s = "" →
        (handle fc ctx st).2.session.flowState = some s ∧
        (handle fc ctx st).2.session.flowName = st.session.flowName) ∧
     (truthyStr st.session.flowState = none →
        (handle fc ctx st).2.session.flowName = none ∧
        (handle fc ctx st).2.session.flowState = none)) ∧
    (∀ (g : Ctx) (st₀ : St) (b : ActionHandler) (sel₁ sel₂ : NextStateSel),
        b.refresh = true →
        executeAction fc g { b with nextState := some sel₁ } st₀ =
        executeAction fc g { b with nextState := some sel₂ } st₀) := by
  have hsel := handle_selects fc ctx st S p a caps hname hS hroute
  constructor
  · constructor
    · intro s hs hne
      have hcsn : st.session.flowState.getD "index" = s := by rw [hs]; rfl
      have hSs : lookupState fc.config s = some S := by rw [← hcsn]; exact hS
      have hns : truthyStr (resolveNextState a st.session.flowState res) =
          some s := by
        simp only [resolveNextState, hrefresh, if_true, hs, truthyStr]
        rw [if_neg hne]
      have hEA := executeAction_transition fc ctx a
        { st with params := buildParams (extractParamNames p) caps }
        inp res v s hin hex hout hns
      rw [hsel, hEA]
      rcases hr : renderState fc ctx s
        { st with
            params := buildParams (extractParamNames p) caps,
            session := { st.session with flowState := some s } } with ⟨r2, st3⟩
      have hsess3 : st3.session =
          { st.session with flowState := some s } := by
        have := renderState_session fc ctx s
          { st with
              params := buildParams (extractParamNames p) caps,
              session := { st.session with flowState := some s } } S hSs
        rw [hr] at this
        exact this
      cases r2 with
      | ok _ => exact ⟨by rw [hsess3], by rw [hsess3]⟩
      | error e =>
        dsimp only
        rcases hrep : ctxReply ctx actionFailureMessage
            (pushLog actionErrorLog st3) with ⟨r4, st4⟩
        have hsess4 : st4.session = st3.session := by
          have := ctxReply_session ctx actionFailureMessage
            (pushLog actionErrorLog st3)
          rw [hrep] at this
          exact this
        cases r4 with
        | ok _ => exact ⟨by rw [hsess4, hsess3], by rw [hsess4, hsess3]⟩
        | error e2 => exact ⟨by rw [hsess4, hsess3], by rw [hsess4, hsess3]⟩
    · intro h0
      have hns0 : truthyStr (resolveNextState a st.session.flowState res) =
          none := by
        simp only [resolveNextState, hrefresh, if_true]
        exact h0
      have hEA := executeAction_exit fc ctx a
        { st with params := buildParams (extractParamNames p) caps }
        inp res v hin hex hout hns0
      rw [hsel, hEA]
      exact ⟨rfl, rfl⟩
  · intro g st₀ b sel₁ sel₂ hb
    simp [executeAction, execBody, resolveNextState, hb]

/-- C2 — witness: flow `fr`, state `s1`, rule `go` with `refresh: true` and
`nextState: "target"`: after the event the conversation is still in `s1`. -/
theorem refresh_precedence_amended_witness :
    (handle refreshFlow goCtx refreshSt).2.session.flowState = some "s1" ∧
    (handle refreshFlow goCtx refreshSt).2.session.flowName =
      refreshSt.session.flowName := by
  have h := refresh_precedence_amended refreshFlow goCtx refreshSt refreshState
    "go" ⟨okCommand, some (NextStateSel.name "target"), true⟩ []
    (mkRawInput (buildParams (extractParamNames "go") []) goCtx.update)
    (Val.num 1) (Val.num 1) rfl rfl
    (Or.inl ⟨"go", rfl, [], [], rfl, by simp, by decide⟩)
    rfl rfl rfl rfl rfl
  exact h.1.1 "s1" rfl (by decide)

/-- C9 — counterexample.  The claim says a throw from a transport call is
not handled inside the flow engine and propagates out of `handle`.  Here
the edit call throws while rendering (the event is a callback interaction
in flow `demo`), yet `handle` returns normally with `true`: the throw is
caught by `renderState`'s catch-all, which sends the fixed display-failure
reply — the transport log afterwards shows the successful answer-callback
followed by the fallback reply. -/
theorem transport_error_caught_counterexample :
    (handle demoFlow brokenEditCtx inDemoSt).1 = Except.ok true ∧
    (handle demoFlow brokenEditCtx inDemoSt).2.sent =
      [SentMsg.reply renderFailureMessage, SentMsg.answerCb] :=
  ⟨rfl, rfl⟩

/-- C9 — amended: a throw from a transport call during render delivery is
caught inside the flow engine by `renderState`'s catch-all, which logs and
sends the fixed display-failure reply; only a throw from that fallback
reply itself escapes `FlowController.handle`, and the Outer Router's
top-level catch then only logs it. -/
theorem transport_error_propagation_amended (fc : FlowController) (ctx : Ctx)
    (st : St) (S : FlowState) (cq : CallbackQuery) (payload : MessagePayload)
    (hname : st.session.flowName = some fc.name)
    (hS : lookupState fc.config (st.session.flowState.getD "index") = some S)
    (hcq : ctx.update.callback_query = some cq)
    (hdata : cq.data = none)
    (hmsg : ctx.update.message = none)
    (henter : S.onEnter = none)
    (hcomp : S.component (Val.obj []) = Except.ok payload)
    (hans : ctx.answerOk = true)
    (hedit : ctx.editOk = false) :
    (ctx.replyOk = true →
       handle fc ctx st =
         (Except.ok true,
           { st with
               views := (st.session.flowState.getD "index") :: st.views,
               sent := SentMsg.reply renderFailureMessage ::
                 SentMsg.answerCb :: st.sent,
               logs := renderErrorLog :: st.logs })) ∧
    (ctx.replyOk = false →
       handle fc ctx st =
         (Except.error (),
           { st with
               views := (st.session.flowState.getD "index") :: st.views,
               sent := SentMsg.answerCb :: st.sent,
               logs := renderErrorLog :: st.logs }) ∧
       routerHandleFlow fc ctx st =
         { st with
             views := (st.session.flowState.getD "index") :: st.views,
             sent := SentMsg.answerCb :: st.sent,
             logs := routerErrorLog :: renderErrorLog :: st.logs }) := by
  have hb : renderBody ctx (st.session.flowState.getD "index") S st =
      (Except.error (),
        pushSent SentMsg.answerCb
          (pushView (st.session.flowState.getD "index") st)) := by
    simp only [renderBody, enterProps, henter, hcomp, deliver, hcq,
      Option.isSome_some, if_true, ctxAnswerCallbackQuery, hans,
      ctxEditMessageText, hedit]
    rfl
  have hflow : ∀ rs,
      renderState fc ctx (st.session.flowState.getD "index") st = rs →
      handle fc ctx st =
        (match rs with
         | (Except.ok _, st3) => (Except.ok true, st3)
         | (Except.error e, st3) => (Except.error e, st3)) := by
    intro rs hrs
    unfold handle
    rw [if_pos hname, hS]
    dsimp only
    unfold handleState
    have hcba : truthyStr (ctx.update.callback_query.bind CallbackQuery.data) =
        none := by
      rw [hcq]
      simp [hdata, truthyStr]
    have htxa : truthyStr (ctx.update.message.bind Message.text) = none := by
      rw [hmsg]
      rfl
    rw [hcba]
    dsimp only
    rw [htxa]
    dsimp only
    rw [hrs]
  have hrs0 : renderState fc ctx (st.session.flowState.getD "index") st =
      ctxReply ctx renderFailureMessage
        (pushLog renderErrorLog
          (pushSent SentMsg.answerCb
            (pushView (st.session.flowState.getD "index") st))) := by
    unfold renderState
    rw [hS]
    dsimp only
    rw [hb]
  constructor
  · intro hreply
    have hrs : renderState fc ctx (st.session.flowState.getD "index") st =
        (Except.ok (),
          pushSent (SentMsg.reply renderFailureMessage)
            (pushLog renderErrorLog
              (pushSent SentMsg.answerCb
                (pushView (st.session.flowState.getD "index") st)))) := by
      rw [hrs0]
      simp only [ctxReply, hreply, if_true]
    rw [hflow _ hrs]
    rfl
  · intro hreply
    have hrs : renderState fc ctx (st.session.flowState.getD "index") st =
        (Except.error (),
          pushLog renderErrorLog
            (pushSent SentMsg.answerCb
              (pushView (st.session.flowState.getD "index") st))) := by
      rw [hrs0]
      simp only [ctxReply, hreply]
      rfl
    constructor
    · rw [hflow _ hrs]
      rfl
    · unfold routerHandleFlow
      rw [hflow _ hrs]
      rfl

/-- C9 — witness: with the edit and reply calls both throwing, the event's
exception escapes `handle` and the router's catch appends only its log
entry. -/
theorem transport_error_propagation_amended_witness :
    handle demoFlow brokenAllCtx inDemoSt =
      (Except.error (),
        { inDemoSt with
            views := ["index"]
            sent := [SentMsg.answerCb]
            logs := [renderErrorLog] }) ∧
    routerHandleFlow demoFlow brokenAllCtx inDemoSt =
      { inDemoSt with
          views := ["index"]
          sent := [SentMsg.answerCb]
          logs := [routerErrorLog, renderErrorLog] } := by
  have h := transport_error_propagation_amended demoFlow brokenAllCtx inDemoSt
    demoState ⟨none⟩ ⟨"screen"⟩ rfl rfl rfl rfl rfl rfl rfl rfl rfl
  exact h.2 rfl
